import Mathlib

/-!
Verification development for the esp32-s3-entry-hub voice-capture core.

Shallow embedding of:
  * `VoiceActivityHandler` (src/voice_activity_handler.cpp) — the adaptive-baseline
    spike detector;
  * `HAAssistClient` recording session (src/ha_assist_client.cpp);
  * the `handleVoiceRecognition` state machine and the command interpreter
    (src/main.cpp).

Machine integers are modelled as `Int` with explicit wrapping where the source's
`int16_t` / `int32_t` arithmetic can overflow.  `millis()` timestamps are modelled
as `Nat`; theorems that need it carry a monotone-time hypothesis (the source's
`unsigned long` arithmetic wraps only after ~49.7 days).  The source computes the
detector thresholds in IEEE-754 single precision; that arithmetic is modelled
exactly by dyadic integer pairs with round-to-nearest-even at 24 significant
bits after each operation.
-/

/-- Wrap an integer into the signed 32-bit range, as two's-complement
`int32_t` overflow does on the target. -/
def wrap32 (n : ℤ) : ℤ := (n + 2 ^ 31) % 2 ^ 32 - 2 ^ 31

/-- The value stored in an `int16_t` after `absVal = abs(sample)`:
`abs(-32768)` wraps back to `-32768`, every other in-range sample gives `|s|`. -/
def int16abs (s : ℤ) : ℤ := if s = -32768 then -32768 else |s|

/-! ### Exact model of the source's float32 arithmetic

Every IEEE-754 binary32 value is a dyadic rational, so the source's float
computations are modelled exactly by pairs `(m, e) : ℤ × ℤ` denoting
`m * 2 ^ e`, with an explicit round-to-nearest-even-at-24-significant-bits
after each arithmetic operation.  Only the normal range matters here (all the
values the source computes lie well inside it), so overflow and subnormals are
not modelled. -/

/-- Fuelled base-2 logarithm on naturals: `log2fuel f n = ⌊log₂ n⌋` for `n ≥ 1`
whenever `f ≥ n`. -/
def log2fuel : ℕ → ℕ → ℕ
  | 0, _ => 0
  | f + 1, n => if n ≥ 2 then log2fuel f (n / 2) + 1 else 0

/-- Floor of `log₂ n` for naturals (0 for `n = 0`), kernel-reducible. -/
def nlog2 (n : ℕ) : ℕ := log2fuel n n

/-- Round a natural significand to at most 24 bits, nearest-even; the result
`(q, s)` denotes `q * 2 ^ s`. -/
def rnd24n (n : ℕ) : ℕ × ℕ :=
  if n < 2 ^ 24 then (n, 0)
  else
    let s := nlog2 n - 23
    let q := n / 2 ^ s
    let r := n % 2 ^ s
    let h := 2 ^ (s - 1)
    (if r > h ∨ (r = h ∧ q % 2 = 1) then q + 1 else q, s)

/-- Round a dyadic value to the nearest binary32 value (ties to even). -/
def fRound (a : ℤ × ℤ) : ℤ × ℤ :=
  let p := rnd24n a.1.natAbs
  (a.1.sign * (p.1 : ℤ), a.2 + (p.2 : ℤ))

/-- Float multiplication: exact product, then one rounding. -/
def fMul (a b : ℤ × ℤ) : ℤ × ℤ := fRound (a.1 * b.1, a.2 + b.2)

/-- Float subtraction: exact difference, then one rounding. -/
def fSub (a b : ℤ × ℤ) : ℤ × ℤ :=
  let e := min a.2 b.2
  fRound (a.1 * 2 ^ (a.2 - e).toNat - b.1 * 2 ^ (b.2 - e).toNat, e)

/-- The C cast `(int32_t)` of a float value: truncation toward zero (exact for
the in-range values the source produces). -/
def fToIntTrunc (a : ℤ × ℤ) : ℤ :=
  if 0 ≤ a.2 then a.1 * 2 ^ a.2.toNat else Int.tdiv a.1 (2 ^ (-a.2).toNat)

/-- The rational value a dyadic pair denotes (used only in specifications). -/
def f2q (a : ℤ × ℤ) : ℚ := (a.1 : ℚ) * (2 : ℚ) ^ a.2

/-- The binary32 value of the literal `0.9f` used in
`voiceThreshold = (int32_t)(250000000LL * (1.0f - sensitivity * 0.9f))`. -/
def c0_9 : ℤ × ℤ := (15099494, -24)

/-- The threshold the source computes from a sensitivity value (itself a
binary32 number, given as a dyadic pair): float multiply by `0.9f`, float
subtract from `1.0f`, float multiply by `250000000` (exactly representable),
truncate to `int32_t`. -/
def voiceThresholdOf (s : ℤ × ℤ) : ℤ :=
  fToIntTrunc (fMul (250000000, 0) (fSub (1, 0) (fMul s c0_9)))

/-- The binary32 rounding of an integer value (the `int32_t` → `float`
conversion applied to `adaptiveBaseline`). -/
def round24 (x : ℤ) : ℤ :=
  (x.sign * ((rnd24n x.natAbs).1 : ℤ)) * 2 ^ (rnd24n x.natAbs).2

/-- The spike threshold `(int32_t)(adaptiveBaseline * SPIKE_MULTIPLIER)` with
`SPIKE_MULTIPLIER = 2.0f`: the `int32_t` baseline converts to float (rounding
to 24 significant bits), doubling is exact, and the cast back is exact whenever
the result fits in `int32_t` (theorems below carry that bound). -/
def spikeThresholdC (b : ℤ) : ℤ := 2 * round24 b

/-- The binary32 value of the default `WAKE_WORD_SENSITIVITY 0.3f`. -/
def sens03 : ℤ × ℤ := (10066330, -25)

/-! ### The spike detector (`VoiceActivityHandler`) -/

/-- State of `VoiceActivityHandler`.  `wakeModeThreshold` stands for
`wakeMode == WAKE_MODE_THRESHOLD`; the baseline circular buffer holds
`BASELINE_SAMPLES = 60` slots. -/
structure VAState where
  initialized : Bool
  wakeModeThreshold : Bool
  sensitivity : ℤ × ℤ
  voiceThreshold : ℤ
  lastAudioLevel : ℤ
  lastDetectionTime : ℕ
  cooldownUntil : ℕ
  baselineLevels : List ℤ
  baselineIndex : ℕ
  adaptiveBaseline : ℤ
  lastBaselineUpdate : ℕ
  voiceDetected : Bool
  deriving DecidableEq

/-- `COOLDOWN_MS` from voice_activity_handler.h. -/
def COOLDOWN_MS : ℕ := 2000
/-- `BASELINE_UPDATE_MS` from voice_activity_handler.h. -/
def BASELINE_UPDATE_MS : ℕ := 1000
/-- `BASELINE_SAMPLES` from voice_activity_handler.h. -/
def BASELINE_SAMPLES : ℕ := 60

/-- Minimum-fold of `processAudioFrame`, starting from `INT16_MAX`. -/
def frameMin (l : List ℤ) : ℤ := l.foldl (fun m s => if s < m then s else m) 32767

/-- Maximum-fold of `processAudioFrame`, starting from `INT16_MIN`. -/
def frameMax (l : List ℤ) : ℤ := l.foldl (fun m s => if s > m then s else m) (-32768)

/-- The amplitude the detector compares against its thresholds:
`((int32_t)maxVal - (int32_t)minVal) * 65536`, which overflows (wraps) in
`int32_t` once the raw peak-to-peak exceeds `32767`. -/
def peakToPeakOf (l : List ℤ) : ℤ := wrap32 ((frameMax l - frameMin l) * 65536)

/-- `VoiceActivityHandler::calculateBaseline`: keep the strictly positive slots
in buffer order, sort ascending, return the entry at index `(count * 3) / 4`
(0 when no slot is positive).  The source's bubble sort computes the ascending
sorted permutation of the collected slots; since a sorted permutation is unique
for the linear order on `ℤ`, it is embedded by `List.insertionSort`. -/
def calculateBaseline (levels : List ℤ) : ℤ :=
  let pos := levels.filter (fun x => decide (0 < x))
  if pos = [] then 0
  else (pos.insertionSort (· ≤ ·)).getD (pos.length * 3 / 4) 0

/-- `VoiceActivityHandler::updateBaseline`: write `level` at the cursor, advance
the cursor mod `BASELINE_SAMPLES`, recompute the percentile. -/
def updateBaseline (st : VAState) (level : ℤ) : VAState :=
  let ls := st.baselineLevels.set st.baselineIndex level
  { st with
    baselineLevels := ls
    baselineIndex := (st.baselineIndex + 1) % BASELINE_SAMPLES
    adaptiveBaseline := calculateBaseline ls }

/-- The baseline-maintenance stage of `processAudioFrame`: if at least
`BASELINE_UPDATE_MS` elapsed since the last update, feed the current amplitude
into the circular buffer and stamp the update time. -/
def baselineStage (st : VAState) (now : ℕ) (p : ℤ) : VAState :=
  if now - st.lastBaselineUpdate ≥ BASELINE_UPDATE_MS then
    { updateBaseline st p with lastBaselineUpdate := now }
  else st

/-- `VoiceActivityHandler::processAudioFrame`.  Returns the trigger flag and the
successor state.  All `millis()` reads within one call are the single tick time
`now`. -/
def processAudioFrame (st : VAState) (now : ℕ) (frame : List ℤ) : Bool × VAState :=
  if ¬st.initialized ∨ frame = [] then (false, st)
  else if ¬st.wakeModeThreshold then (false, st)
  else if now < st.cooldownUntil then (false, st)
  else
    let p := peakToPeakOf frame
    let st2 := baselineStage { st with lastAudioLevel := p } now p
    let aboveMin := p > st2.voiceThreshold
    let isSpike := if st2.adaptiveBaseline > 0 then p > spikeThresholdC st2.adaptiveBaseline else true
    if aboveMin ∧ isSpike then
      (true, { st2 with
                voiceDetected := true
                lastDetectionTime := now
                cooldownUntil := now + COOLDOWN_MS })
    else (false, st2)

/-- The times at which a sequence of `processAudioFrame` calls reports a
trigger. -/
def triggerTimes (st : VAState) : List (ℕ × List ℤ) → List ℕ
  | [] => []
  | (t, f) :: rest =>
    let r := processAudioFrame st t f
    if r.1 then t :: triggerTimes r.2 rest else triggerTimes r.2 rest

/-- The detector state `VoiceActivityHandler::VoiceActivityHandler()` +
`begin()` produce: zeroed baseline buffer, threshold derived from the
configured sensitivity. -/
def initialVAState (s : ℤ × ℤ) : VAState :=
  { initialized := true
    wakeModeThreshold := true
    sensitivity := s
    voiceThreshold := voiceThresholdOf s
    lastAudioLevel := 0
    lastDetectionTime := 0
    cooldownUntil := 0
    baselineLevels := List.replicate BASELINE_SAMPLES 0
    baselineIndex := 0
    adaptiveBaseline := 0
    lastBaselineUpdate := 0
    voiceDetected := false }

/-! ### The command interpreter (`normalizeCommand` / `processVoiceCommand`) -/

/-- Whitespace as Arduino's `String::trim` (via `isspace`) sees it. -/
def isSpaceChar (c : Char) : Bool :=
  c == ' ' || c == '\t' || c == '\n' || c == '\r' || c == '\x0b' || c == '\x0c'

/-- Arduino `String::trim`: drop leading and trailing whitespace. -/
def trimChars (s : List Char) : List Char :=
  ((s.dropWhile isSpaceChar).reverse.dropWhile isSpaceChar).reverse

/-- Fuelled engine of `replaceAll`; `fuel = s.length` always suffices because
each step consumes at least one character of `s`. -/
def replaceAllF : ℕ → List Char → List Char → List Char → List Char
  | 0, _, _, s => s
  | f + 1, pat, rep, s =>
    match s with
    | [] => []
    | c :: rest =>
      if pat ≠ [] ∧ pat.isPrefixOf (c :: rest) then
        rep ++ replaceAllF f pat rep ((c :: rest).drop pat.length)
      else c :: replaceAllF f pat rep rest

/-- Arduino `String::replace(pat, rep)`: replace every occurrence of `pat`
left to right, resuming the scan after each inserted replacement. -/
def replaceAll (pat rep s : List Char) : List Char := replaceAllF s.length pat rep s

/-- `cmd.indexOf(pat) >= 0`: does `pat` occur as a contiguous substring? -/
def containsSub (pat s : List Char) : Bool := s.tails.any (fun t => pat.isPrefixOf t)

/-- Fuelled model of main.cpp's `while (cmd.indexOf("  ") >= 0)
cmd.replace("  ", " ")` loop; each productive pass shortens the string, so fuel
`s.length` suffices to reach the fixpoint. -/
def collapseSpacesF : ℕ → List Char → List Char
  | 0, s => s
  | f + 1, s =>
    if containsSub (" ".toList ++ " ".toList) s then
      collapseSpacesF f (replaceAll (" ".toList ++ " ".toList) " ".toList s)
    else s

def collapseSpaces (s : List Char) : List Char := collapseSpacesF s.length s

/-- `normalizeCommand` from main.cpp: lower-case, trim, apply the fixed
mishearing substitutions in source order, collapse repeated spaces. -/
def normalizeCommand (raw : List Char) : List Char :=
  let c := trimChars (raw.map Char.toLower)
  let c := replaceAll ("open date".toList) ("open gate".toList) c
  let c := replaceAll ("open this".toList) ("open gate".toList) c
  let c := replaceAll ("open gate".toList) ("open gate".toList) c
  let c := replaceAll ("open the gate".toList) ("open gate".toList) c
  let c := replaceAll ("opened".toList) ("open gate".toList) c
  let c := replaceAll ("opengate".toList) ("open gate".toList) c
  let c := replaceAll ("garage door".toList) ("garage".toList) c
  let c := replaceAll ("the garage".toList) ("garage".toList) c
  collapseSpaces c

/-- The home-automation actuations `processVoiceCommand` can issue. -/
inductive HAAction where
  | light (entity : String) (turnOn : Bool)
  | cover (entity : String) (cmd : String)
  | lock (entity : String) (locked : Bool)
  | scene (name : String)
  deriving DecidableEq

/-- The ordered substring-match dispatch of `processVoiceCommand`, acting on
the normalized command text; returns the actuation calls it issues. -/
def dispatchCmd (cmd : List Char) : List HAAction :=
  if containsSub ("light".toList) cmd then
    if containsSub ("on".toList) cmd then [HAAction.light "living_room" true]
    else if containsSub ("off".toList) cmd then [HAAction.light "living_room" false]
    else []
  else if containsSub ("gate".toList) cmd ∨ containsSub ("garage".toList) cmd then
    if containsSub ("open".toList) cmd then [HAAction.cover "garage_door" "open"]
    else if containsSub ("close".toList) cmd then [HAAction.cover "garage_door" "close"]
    else [HAAction.cover "garage_door" "toggle"]
  else if containsSub ("lock".toList) cmd ∨ containsSub ("door".toList) cmd then
    if containsSub ("lock".toList) cmd then [HAAction.lock "front_door" true]
    else if containsSub ("unlock".toList) cmd then [HAAction.lock "front_door" false]
    else []
  else if containsSub ("good night".toList) cmd then [HAAction.scene "good_night"]
  else if containsSub ("welcome home".toList) cmd then [HAAction.scene "welcome_home"]
  else []

/-- `processVoiceCommand`: normalize, then dispatch. -/
def processVoiceCommandActions (raw : List Char) : List HAAction :=
  dispatchCmd (normalizeCommand raw)

/-! ### The recording session (`HAAssistClient`) and the composed system -/

/-- `AssistState` from ha_assist_client.h. -/
inductive AssistSt where
  | idle
  | recording
  | processingSTT
  | processingConversation
  | processingTTS
  | error
  deriving DecidableEq

/-- Externally observable events of one run: STT submissions, result-callback
invocations, and actuations issued by the command interpreter. -/
inductive Ev where
  | sttSubmit (samples : ℕ)
  | callbackInvoked
  | act (a : HAAction)
  deriving DecidableEq

/-- `VoiceState` from main.cpp. -/
inductive VoiceSt where
  | idle
  | waitingSpeech
  | recording
  | processing
  deriving DecidableEq

/-- main.cpp `TRIGGER_COOLDOWN_MS`. -/
def TRIGGER_COOLDOWN_MS : ℕ := 300
/-- main.cpp `WAIT_FOR_SPEECH_TIMEOUT_MS`. -/
def WAIT_FOR_SPEECH_TIMEOUT_MS : ℕ := 3000
/-- main.cpp `SILENCE_DURATION_MS`. -/
def SILENCE_DURATION_MS : ℕ := 700
/-- main.cpp `MIN_RECORDING_MS`. -/
def MIN_RECORDING_MS : ℕ := 500
/-- main.cpp `MAX_RECORDING_MS`. -/
def MAX_RECORDING_MS : ℕ := 10000
/-- main.cpp `SPEECH_THRESHOLD` (raw 16-bit peak units). -/
def SPEECH_THRESHOLD : ℤ := 500
/-- main.cpp `SILENCE_THRESHOLD`. -/
def SILENCE_THRESHOLD : ℤ := 100
/-- main.cpp `MIN_SPEECH_LEVEL`. -/
def MIN_SPEECH_LEVEL : ℤ := 300
/-- `ASSIST_SAMPLE_RATE` from ha_assist_client.h. -/
def ASSIST_SAMPLE_RATE : ℕ := 16000

/-- Composed state: the main.cpp globals, the detector, and the assist client,
plus the observable event log. -/
structure Sys where
  voiceState : VoiceSt
  voiceStateStartTime : ℕ
  lastSpeechTime : ℕ
  silenceStartTime : ℕ
  totalAudioSamples : ℕ
  maxAudioLevel : ℤ
  det : VAState
  assistState : AssistSt
  recordIndex : ℕ
  recordBufferSize : ℕ
  hasBuffer : Bool
  callbackSet : Bool
  events : List Ev
  deriving DecidableEq

/-- One scheduler tick's inputs: the `millis()` reading, the audio block
`readAudio` returned, and the network oracle for any transcription request
issued this tick (`wifi` = `WiFi.isConnected()`, `stt` = the transcription the
STT round trip would produce, `none` for request failure). -/
structure TickInput where
  now : ℕ
  audio : List ℤ
  wifi : Bool
  stt : Option (List Char)

/-- `onAssistResult` from main.cpp: reset the state machine to idle; on a
non-empty transcription, trim it and run the command interpreter. -/
def onAssistResultS (sys : Sys) (transcription : Option (List Char)) : Sys :=
  let sys1 := { sys with voiceState := VoiceSt.idle }
  match transcription with
  | none => sys1
  | some txt =>
    if txt = [] then sys1
    else
      { sys1 with
        events := sys1.events ++ (processVoiceCommandActions (trimChars txt)).map Ev.act }

/-- `if (_callback) _callback(...)`: record the invocation and apply the
registered `onAssistResult`. -/
def fireCallback (sys : Sys) (transcription : Option (List Char)) : Sys :=
  if sys.callbackSet then
    onAssistResultS { sys with events := sys.events ++ [Ev.callbackInvoked] } transcription
  else sys

/-- `HAAssistClient::processVoice`: fail fast without WiFi; otherwise submit
the samples to STT and report the transcription (or the error) through the
callback.  Every branch invokes the callback when one is registered. -/
def processVoiceS (sys : Sys) (wifi : Bool) (stt : Option (List Char))
    (sampleCount : ℕ) : Bool × Sys :=
  if ¬wifi then
    (false, fireCallback { sys with assistState := AssistSt.error } none)
  else
    let sys2 := { sys with
                  assistState := AssistSt.processingSTT
                  events := sys.events ++ [Ev.sttSubmit sampleCount] }
    match stt with
    | none =>
      (false, { fireCallback { sys2 with assistState := AssistSt.error } none with
                assistState := AssistSt.idle })
    | some txt =>
      if txt = [] then
        (false, { fireCallback { sys2 with assistState := AssistSt.error } none with
                  assistState := AssistSt.idle })
      else
        (true, { fireCallback sys2 (some txt) with assistState := AssistSt.idle })

/-- `HAAssistClient::stopAndProcess`: refuse when not recording; silently drop
recordings shorter than `ASSIST_SAMPLE_RATE / 4` samples (0.25 s); otherwise
hand the buffer to `processVoice`. -/
def stopAndProcessS (sys : Sys) (wifi : Bool) (stt : Option (List Char)) : Bool × Sys :=
  if sys.assistState ≠ AssistSt.recording then (false, sys)
  else if sys.recordIndex < ASSIST_SAMPLE_RATE / 4 then
    (false, { sys with assistState := AssistSt.idle })
  else processVoiceS sys wifi stt sys.recordIndex

/-- `HAAssistClient::feedAudio`: no-op unless a session is recording and the
buffer exists; copy at most the remaining space; auto-finalize when full. -/
def feedAudioS (sys : Sys) (wifi : Bool) (stt : Option (List Char)) (count : ℕ) : Sys :=
  if sys.assistState ≠ AssistSt.recording ∨ ¬sys.hasBuffer then sys
  else
    let remaining := sys.recordBufferSize - sys.recordIndex
    let toCopy := min count remaining
    let sys1 := { sys with recordIndex := sys.recordIndex + toCopy }
    if sys1.recordIndex ≥ sys1.recordBufferSize then (stopAndProcessS sys1 wifi stt).2
    else sys1

/-- `HAAssistClient::startRecording`: only from the idle state. -/
def startRecordingS (sys : Sys) : Sys :=
  if sys.assistState ≠ AssistSt.idle then sys
  else { sys with recordIndex := 0, assistState := AssistSt.recording }

/-- Modelled from the spec: `HAAssistClient::cancelRecording` is invoked from
main.cpp on every rejection path, but no definition or declaration of it is
present in the provided sources (ha_assist_client.h declares no such member).
Spec section 4.3 states that cancel "discards all buffered audio and
releases/resets the buffer without ever invoking the Transcription Client",
so it returns the session to idle with the write offset reset and emits no
STT or callback event. -/
def cancelRecordingS (sys : Sys) : Sys :=
  { sys with assistState := AssistSt.idle, recordIndex := 0 }

/-- `getMaxAudioLevel` from main.cpp: maximum of `abs(sample)` over the block,
starting from 0, where `abs` passes through the `int16_t` wrap (so a `-32768`
sample contributes nothing). -/
def getMaxAudioLevel (l : List ℤ) : ℤ :=
  l.foldl (fun m s => if int16abs s > m then int16abs s else m) 0

/-- `handleVoiceRecognition` from main.cpp, one scheduler tick.  The only other
per-tick calls (`haAssist.loop`, UI, LEDs) are no-ops on the modelled state.
The `VOICE_RECORDING` case's two sequential if statements (peak tracking and
silence tracking) touch disjoint scalar fields, so they are embedded as
per-field conditional updates applied in one record update. -/
def systemStep (sys : Sys) (inp : TickInput) : Sys :=
  let samplesRead := inp.audio.length
  if samplesRead = 0 then sys
  else
    let now := inp.now
    let currentLevel := getMaxAudioLevel inp.audio
    match sys.voiceState with
    | VoiceSt.idle =>
      let r := processAudioFrame sys.det now inp.audio
      let sys0 := { sys with det := r.2 }
      if r.1 then
        startRecordingS
          { sys0 with
            voiceState := VoiceSt.waitingSpeech
            voiceStateStartTime := now
            totalAudioSamples := 0
            maxAudioLevel := 0 }
      else sys0
    | VoiceSt.waitingSpeech =>
      let sys1 := feedAudioS sys inp.wifi inp.stt samplesRead
      let sys2 := { sys1 with totalAudioSamples := sys1.totalAudioSamples + samplesRead }
      let tst := now - sys2.voiceStateStartTime
      if tst < TRIGGER_COOLDOWN_MS then sys2
      else
        let sys3 :=
          if currentLevel > SPEECH_THRESHOLD then
            { sys2 with
              voiceState := VoiceSt.recording
              lastSpeechTime := now
              silenceStartTime := 0
              maxAudioLevel := currentLevel }
          else sys2
        if tst > TRIGGER_COOLDOWN_MS + WAIT_FOR_SPEECH_TIMEOUT_MS then
          cancelRecordingS { sys3 with voiceState := VoiceSt.idle }
        else sys3
    | VoiceSt.recording =>
      let sys1 := feedAudioS sys inp.wifi inp.stt samplesRead
      let sys2 := { sys1 with totalAudioSamples := sys1.totalAudioSamples + samplesRead }
      let newMax :=
        if currentLevel > sys2.maxAudioLevel then currentLevel else sys2.maxAudioLevel
      let newLastSpeech :=
        if currentLevel > SILENCE_THRESHOLD then now else sys2.lastSpeechTime
      let newSilStart :=
        if currentLevel > SILENCE_THRESHOLD then 0
        else if sys2.silenceStartTime = 0 then now
        else sys2.silenceStartTime
      let sys4 := { sys2 with
                    maxAudioLevel := newMax
                    lastSpeechTime := newLastSpeech
                    silenceStartTime := newSilStart }
      let recDur := now - sys4.voiceStateStartTime
      let silDur := if sys4.silenceStartTime > 0 then now - sys4.silenceStartTime else 0
      let silenceEnd := silDur ≥ SILENCE_DURATION_MS ∧ recDur ≥ MIN_RECORDING_MS
      let maxTimeEnd := recDur ≥ MAX_RECORDING_MS
      if silenceEnd ∨ maxTimeEnd then
        if sys4.maxAudioLevel < MIN_SPEECH_LEVEL then
          cancelRecordingS { sys4 with voiceState := VoiceSt.idle }
        else if sys4.totalAudioSamples < 3200 then
          cancelRecordingS { sys4 with voiceState := VoiceSt.idle }
        else
          (stopAndProcessS { sys4 with voiceState := VoiceSt.processing } inp.wifi inp.stt).2
      else sys4
    | VoiceSt.processing => sys

/-- Run the scheduler over a list of tick inputs. -/
def runSystem (sys : Sys) (inps : List TickInput) : Sys := inps.foldl systemStep sys

/-- The system state after `setupSystem()`: machine idle, detector fresh at the
default `WAKE_WORD_SENSITIVITY 0.3f`, PSRAM recording buffer of
`16000 * 5 = 80000` samples, result callback registered. -/
def initialSys : Sys :=
  { voiceState := VoiceSt.idle
    voiceStateStartTime := 0
    lastSpeechTime := 0
    silenceStartTime := 0
    totalAudioSamples := 0
    maxAudioLevel := 0
    det := initialVAState sens03
    assistState := AssistSt.idle
    recordIndex := 0
    recordBufferSize := 80000
    hasBuffer := true
    callbackSet := true
    events := [] }

/-! ### Helper lemmas -/

theorem wrap32_eq_self {x : ℤ} (h1 : -(2 ^ 31) ≤ x) (h2 : x < 2 ^ 31) : wrap32 x = x := by
  unfold wrap32; omega

theorem wrap32_eq_sub {x : ℤ} (h1 : 2 ^ 31 ≤ x) (h2 : x < 2 ^ 32) : wrap32 x = x - 2 ^ 32 := by
  unfold wrap32; omega

theorem foldl_min_le_start (l : List ℤ) (a : ℤ) :
    l.foldl (fun m s => if s < m then s else m) a ≤ a := by
  induction l generalizing a with
  | nil => simp
  | cons x xs ih =>
    simp only [List.foldl_cons]
    refine le_trans (ih _) ?_
    split <;> omega

theorem foldl_min_le_mem (l : List ℤ) (a x : ℤ) (hx : x ∈ l) :
    l.foldl (fun m s => if s < m then s else m) a ≤ x := by
  induction l generalizing a with
  | nil => cases hx
  | cons y ys ih =>
    rcases List.mem_cons.mp hx with h | h
    · simp only [List.foldl_cons]
      refine le_trans (foldl_min_le_start _ _) ?_
      split <;> omega
    · exact ih _ h

theorem le_foldl_min (l : List ℤ) (a c : ℤ) (hc : ∀ x ∈ l, c ≤ x) (ha : c ≤ a) :
    c ≤ l.foldl (fun m s => if s < m then s else m) a := by
  induction l generalizing a with
  | nil => simpa
  | cons y ys ih =>
    simp only [List.foldl_cons]
    refine ih _ (fun x hx => hc x (List.mem_cons_of_mem _ hx)) ?_
    have := hc y (List.mem_cons_self _ _)
    split <;> omega

theorem start_le_foldl_max (l : List ℤ) (a : ℤ) :
    a ≤ l.foldl (fun m s => if s > m then s else m) a := by
  induction l generalizing a with
  | nil => simp
  | cons x xs ih =>
    simp only [List.foldl_cons]
    refine le_trans ?_ (ih _)
    split <;> omega

theorem mem_le_foldl_max (l : List ℤ) (a x : ℤ) (hx : x ∈ l) :
    x ≤ l.foldl (fun m s => if s > m then s else m) a := by
  induction l generalizing a with
  | nil => cases hx
  | cons y ys ih =>
    rcases List.mem_cons.mp hx with h | h
    · simp only [List.foldl_cons]
      refine le_trans ?_ (start_le_foldl_max _ _)
      split <;> omega
    · exact ih _ h

theorem foldl_max_le (l : List ℤ) (a c : ℤ) (hc : ∀ x ∈ l, x ≤ c) (ha : a ≤ c) :
    l.foldl (fun m s => if s > m then s else m) a ≤ c := by
  induction l generalizing a with
  | nil => simpa
  | cons y ys ih =>
    simp only [List.foldl_cons]
    refine ih _ (fun x hx => hc x (List.mem_cons_of_mem _ hx)) ?_
    have := hc y (List.mem_cons_self _ _)
    split <;> omega

theorem frameMin_le_frameMax (l : List ℤ) (hne : l ≠ [])
    (hrange : ∀ s ∈ l, -32768 ≤ s ∧ s ≤ 32767) :
    frameMin l ≤ frameMax l ∧ -32768 ≤ frameMin l ∧ frameMax l ≤ 32767 := by
  obtain ⟨x, hx⟩ := List.exists_mem_of_ne_nil l hne
  refine ⟨le_trans (foldl_min_le_mem l _ x hx) (mem_le_foldl_max l _ x hx), ?_, ?_⟩
  · exact le_foldl_min l _ _ (fun s hs => (hrange s hs).1) (by norm_num)
  · exact foldl_max_le l _ _ (fun s hs => (hrange s hs).2) (by norm_num)

/-! ### Claim C7: the compared amplitude vs the exact widened peak-to-peak -/

/-- C7 counterexample: for the block `[-32768, 32767]` the raw peak-to-peak is
65535, but the `int32_t` product `65535 * 65536` wraps to `-65536`, so the value
the detector compares is not the exact mathematical product `4294901760`. -/
theorem C7_counterexample :
    peakToPeakOf [-32768, 32767] = -65536 ∧
    (65535 : ℤ) * 65536 = 4294901760 ∧
    peakToPeakOf [-32768, 32767] ≠
      (frameMax [-32768, 32767] - frameMin [-32768, 32767]) * 65536 := by
  refine ⟨by decide, by decide, by decide⟩

/-- C7 (amended): for every non-empty block of in-range 16-bit samples the
compared amplitude is the signed-32-bit wrap of `(max − min) * 65536`; it equals
the exact product precisely when the raw peak-to-peak is at most 32767, and for
larger peak-to-peak it equals the product minus `2^32` (hence differs from it). -/
theorem C7_amplitude (l : List ℤ) (hne : l ≠ [])
    (hrange : ∀ s ∈ l, -32768 ≤ s ∧ s ≤ 32767) :
    (frameMax l - frameMin l ≤ 32767 →
        peakToPeakOf l = (frameMax l - frameMin l) * 65536) ∧
    (32768 ≤ frameMax l - frameMin l →
        peakToPeakOf l = (frameMax l - frameMin l) * 65536 - 2 ^ 32 ∧
        peakToPeakOf l ≠ (frameMax l - frameMin l) * 65536) ∧
    0 ≤ frameMax l - frameMin l ∧ frameMax l - frameMin l ≤ 65535 := by
  obtain ⟨hmm, hmin, hmax⟩ := frameMin_le_frameMax l hne hrange
  refine ⟨?_, ?_, by omega, by omega⟩
  · intro h
    exact wrap32_eq_self (by omega) (by omega)
  · intro h
    have : peakToPeakOf l = (frameMax l - frameMin l) * 65536 - 2 ^ 32 :=
      wrap32_eq_sub (by omega) (by omega)
    exact ⟨this, by omega⟩

/-- C7 witness: instantiated at the block `[100, -200]` (peak-to-peak 300). -/
theorem C7_witness :
    peakToPeakOf [100, -200] = (frameMax [100, -200] - frameMin [100, -200]) * 65536 :=
  (C7_amplitude [100, -200] (by decide) (by decide)).1 (by decide)

/-! ### Claim C5: the baseline is the order-independent 75th percentile -/

/-- The specification-side percentile: the 75th-percentile entry of a multiset
of readings, via its sorted enumeration (spec section 8.2 and the design note
blessing any sort-and-index selection). -/
def specPercentile75 (m : Multiset ℤ) : ℤ :=
  if m = 0 then 0 else (m.sort (· ≤ ·)).getD (Multiset.card m * 3 / 4) 0

theorem multiset_sort_eq_insertionSort (l : List ℤ) :
    Multiset.sort (· ≤ ·) (↑l) = l.insertionSort (· ≤ ·) := by
  refine List.eq_of_perm_of_sorted ?_ (Multiset.sort_sorted _ _) (List.sorted_insertionSort _ _)
  refine List.Perm.trans ?_ (List.perm_insertionSort _ _).symm
  exact Multiset.coe_eq_coe.mp (Multiset.sort_eq _ (↑l : Multiset ℤ))

/-- C5: the derived baseline equals the 75th-percentile value of the populated
(positive) slots viewed as a multiset; consequently two buffers holding the
same multiset of populated readings — in particular the same readings inserted
in any order once the buffer is full — yield the same baseline. -/
theorem C5_baseline_percentile (a b : List ℤ)
    (hperm : (a.filter fun x => decide (0 < x)).Perm (b.filter fun x => decide (0 < x))) :
    calculateBaseline a = specPercentile75 ↑(a.filter fun x => decide (0 < x)) ∧
    calculateBaseline a = calculateBaseline b := by
  have key : ∀ l : List ℤ,
      calculateBaseline l = specPercentile75 ↑(l.filter fun x => decide (0 < x)) := by
    intro l
    unfold calculateBaseline specPercentile75
    rw [multiset_sort_eq_insertionSort]
    simp [Multiset.coe_eq_zero]
  refine ⟨key a, ?_⟩
  rw [key a, key b]
  congr 1
  exact Multiset.coe_eq_coe.mpr hperm

/-- C5 witness: two buffers holding the multiset `{9, 5, 3, 1}` of populated
slots in different insertion orders give the same baseline, equal to the
75th-percentile entry. -/
theorem C5_witness :
    calculateBaseline [5, 0, 3, -2, 9, 1] =
      specPercentile75 ↑(([5, 0, 3, -2, 9, 1] : List ℤ).filter fun x => decide (0 < x)) ∧
    calculateBaseline [5, 0, 3, -2, 9, 1] = calculateBaseline [1, 9, 0, 5, 3] :=
  C5_baseline_percentile [5, 0, 3, -2, 9, 1] [1, 9, 0, 5, 3] (by decide)

/-! ### Claim C9: the stopAndProcess 0.25-second floor -/

/-- C9: calling `stopAndProcess` with fewer than `ASSIST_SAMPLE_RATE / 4 = 4000`
samples accumulated returns false and resets the client to idle, leaving the
event log untouched — the STT service and the registered result callback are
never invoked; calling it while not recording returns false and changes
nothing.  The 4000-sample floor is strictly stricter than the state machine's
own 3200-sample check. -/
theorem C9_stop_floor :
    (∀ (sys : Sys) (wifi : Bool) (stt : Option (List Char)),
        sys.assistState = AssistSt.recording →
        sys.recordIndex < ASSIST_SAMPLE_RATE / 4 →
        stopAndProcessS sys wifi stt = (false, { sys with assistState := AssistSt.idle })) ∧
    (∀ (sys : Sys) (wifi : Bool) (stt : Option (List Char)),
        sys.assistState ≠ AssistSt.recording →
        stopAndProcessS sys wifi stt = (false, sys)) ∧
    ASSIST_SAMPLE_RATE / 4 = 4000 ∧ 3200 < ASSIST_SAMPLE_RATE / 4 := by
  refine ⟨?_, ?_, by decide, by decide⟩
  · intro sys wifi stt hrec hshort
    unfold stopAndProcessS
    rw [if_neg (by simp [hrec]), if_pos hshort]
  · intro sys wifi stt hnrec
    unfold stopAndProcessS
    rw [if_pos hnrec]

/-- A concrete 3584-sample recording session used to witness C9 and related
claims: the machine-level 3200-sample floor passes but the client-level
4000-sample floor fails. -/
def shortSessionSys : Sys :=
  { initialSys with assistState := AssistSt.recording, recordIndex := 3584 }

/-- C9 witness: at the concrete 3584-sample session, `stopAndProcess` returns
false, goes idle, and emits no STT or callback event. -/
theorem C9_witness :
    stopAndProcessS shortSessionSys true (some ("hello".toList)) =
      (false, { shortSessionSys with assistState := AssistSt.idle }) ∧
    (stopAndProcessS shortSessionSys true (some ("hello".toList))).2.events = [] :=
  ⟨C9_stop_floor.1 shortSessionSys true (some ("hello".toList)) (by decide) (by decide),
   by rw [C9_stop_floor.1 shortSessionSys true (some ("hello".toList)) (by decide) (by decide)]; rfl⟩

/-! ### Claim C2: recording-buffer safety -/

theorem onAssist_fields (sys : Sys) (t : Option (List Char)) :
    (onAssistResultS sys t).recordIndex = sys.recordIndex ∧
    (onAssistResultS sys t).recordBufferSize = sys.recordBufferSize ∧
    (onAssistResultS sys t).assistState = sys.assistState ∧
    (onAssistResultS sys t).hasBuffer = sys.hasBuffer := by
  unfold onAssistResultS
  cases t with
  | none => exact ⟨rfl, rfl, rfl, rfl⟩
  | some txt => by_cases h : txt = [] <;> simp [h]

theorem fireCallback_fields (sys : Sys) (t : Option (List Char)) :
    (fireCallback sys t).recordIndex = sys.recordIndex ∧
    (fireCallback sys t).recordBufferSize = sys.recordBufferSize ∧
    (fireCallback sys t).assistState = sys.assistState ∧
    (fireCallback sys t).hasBuffer = sys.hasBuffer := by
  by_cases h : sys.callbackSet = true
  · have hfc : fireCallback sys t =
        onAssistResultS { sys with events := sys.events ++ [Ev.callbackInvoked] } t := by
      unfold fireCallback
      rw [if_pos h]
    rw [hfc]
    exact onAssist_fields { sys with events := sys.events ++ [Ev.callbackInvoked] } t
  · have hfc : fireCallback sys t = sys := by
      unfold fireCallback
      rw [if_neg h]
    rw [hfc]
    exact ⟨rfl, rfl, rfl, rfl⟩

theorem processVoice_fields (sys : Sys) (w : Bool) (s : Option (List Char)) (c : ℕ) :
    (processVoiceS sys w s c).2.recordIndex = sys.recordIndex ∧
    (processVoiceS sys w s c).2.recordBufferSize = sys.recordBufferSize ∧
    (processVoiceS sys w s c).2.hasBuffer = sys.hasBuffer ∧
    (processVoiceS sys w s c).2.assistState ≠ AssistSt.recording := by
  unfold processVoiceS fireCallback onAssistResultS
  by_cases hw : w = true <;> cases s <;>
    simp only [hw, Bool.not_true, Bool.not_false, not_true_eq_false, not_false_eq_true,
      if_true, if_false, ite_true, ite_false, Bool.false_eq_true] <;>
    split_ifs <;> simp_all

theorem stop_fields (sys : Sys) (w : Bool) (s : Option (List Char)) :
    (stopAndProcessS sys w s).2.recordIndex = sys.recordIndex ∧
    (stopAndProcessS sys w s).2.recordBufferSize = sys.recordBufferSize ∧
    (stopAndProcessS sys w s).2.hasBuffer = sys.hasBuffer ∧
    (sys.assistState = AssistSt.recording →
      (stopAndProcessS sys w s).2.assistState ≠ AssistSt.recording) := by
  unfold stopAndProcessS
  by_cases hrec : sys.assistState = AssistSt.recording
  · rw [if_neg (by simp [hrec])]
    by_cases hshort : sys.recordIndex < ASSIST_SAMPLE_RATE / 4
    · rw [if_pos hshort]
      exact ⟨rfl, rfl, rfl, fun _ => by simp⟩
    · rw [if_neg hshort]
      have h := processVoice_fields sys w s sys.recordIndex
      exact ⟨h.1, h.2.1, h.2.2.1, fun _ => h.2.2.2⟩
  · rw [if_pos hrec]
    exact ⟨rfl, rfl, rfl, fun h => absurd h hrec⟩

/-- Claim C2: (1) a single `feedAudio` never pushes the write offset past the
allocated capacity and never changes that capacity; (2) hence over any sequence
of `feedAudio` calls the offset stays within capacity; (3) a call that would
overflow copies exactly the remaining space (excess dropped, offset pinned at
capacity) and forces finalization — afterwards the client is no longer
recording; (4) a call with no active session or no buffer is a no-op on the
whole system state. -/
theorem C2_feed_safety :
    (∀ (sys : Sys) (wifi : Bool) (stt : Option (List Char)) (count : ℕ),
        sys.recordIndex ≤ sys.recordBufferSize →
        (feedAudioS sys wifi stt count).recordIndex ≤ sys.recordBufferSize ∧
        (feedAudioS sys wifi stt count).recordBufferSize = sys.recordBufferSize) ∧
    (∀ (sys : Sys) (calls : List (Bool × Option (List Char) × ℕ)),
        sys.recordIndex ≤ sys.recordBufferSize →
        (calls.foldl (fun a c => feedAudioS a c.1 c.2.1 c.2.2) sys).recordIndex ≤
          (calls.foldl (fun a c => feedAudioS a c.1 c.2.1 c.2.2) sys).recordBufferSize) ∧
    (∀ (sys : Sys) (wifi : Bool) (stt : Option (List Char)) (count : ℕ),
        sys.assistState = AssistSt.recording → sys.hasBuffer = true →
        sys.recordIndex ≤ sys.recordBufferSize →
        sys.recordBufferSize < sys.recordIndex + count →
        (feedAudioS sys wifi stt count).recordIndex = sys.recordBufferSize ∧
        (feedAudioS sys wifi stt count).assistState ≠ AssistSt.recording) ∧
    (∀ (sys : Sys) (wifi : Bool) (stt : Option (List Char)) (count : ℕ),
        sys.assistState ≠ AssistSt.recording ∨ sys.hasBuffer = false →
        feedAudioS sys wifi stt count = sys) := by
  have hnoop : ∀ (sys : Sys) (wifi : Bool) (stt : Option (List Char)) (count : ℕ),
      sys.assistState ≠ AssistSt.recording ∨ sys.hasBuffer = false →
      feedAudioS sys wifi stt count = sys := by
    intro sys wifi stt count h
    unfold feedAudioS
    rw [if_pos]
    rcases h with h | h
    · exact Or.inl h
    · exact Or.inr (by simp [h])
  have hone : ∀ (sys : Sys) (wifi : Bool) (stt : Option (List Char)) (count : ℕ),
      sys.recordIndex ≤ sys.recordBufferSize →
      (feedAudioS sys wifi stt count).recordIndex ≤ sys.recordBufferSize ∧
      (feedAudioS sys wifi stt count).recordBufferSize = sys.recordBufferSize := by
    intro sys wifi stt count hle
    by_cases hguard : sys.assistState ≠ AssistSt.recording ∨ sys.hasBuffer = false
    · rw [hnoop sys wifi stt count hguard]
      exact ⟨hle, rfl⟩
    · have hact : ¬(sys.assistState ≠ AssistSt.recording ∨ ¬sys.hasBuffer = true) := by
        push_neg at hguard ⊢
        exact ⟨hguard.1, by simp [hguard.2]⟩
      unfold feedAudioS
      rw [if_neg hact]
      have hcopy : sys.recordIndex + min count (sys.recordBufferSize - sys.recordIndex) ≤
          sys.recordBufferSize := by omega
      by_cases hfull :
          sys.recordIndex + min count (sys.recordBufferSize - sys.recordIndex) ≥
            sys.recordBufferSize
      · simp only [hfull, if_pos]
        have h := stop_fields
          { sys with recordIndex :=
              sys.recordIndex + min count (sys.recordBufferSize - sys.recordIndex) } wifi stt
        refine ⟨?_, ?_⟩
        · rw [h.1]; exact hcopy
        · rw [h.2.1]
      · rw [if_neg hfull]
        exact ⟨hcopy, rfl⟩
  refine ⟨hone, ?_, ?_, hnoop⟩
  · intro sys calls
    induction calls generalizing sys with
    | nil => intro h; simpa using h
    | cons c rest ih =>
      intro hle
      simp only [List.foldl_cons]
      have h1 := hone sys c.1 c.2.1 c.2.2 hle
      exact ih (feedAudioS sys c.1 c.2.1 c.2.2) (by rw [h1.2]; exact h1.1)
  · intro sys wifi stt count hrec hbuf hle hover
    have hact : ¬(sys.assistState ≠ AssistSt.recording ∨ ¬sys.hasBuffer = true) := by
      push_neg
      exact ⟨hrec, by simp [hbuf]⟩
    have hmin : min count (sys.recordBufferSize - sys.recordIndex) =
        sys.recordBufferSize - sys.recordIndex := by omega
    unfold feedAudioS
    rw [if_neg hact]
    simp only [hmin]
    have hidx : sys.recordIndex + (sys.recordBufferSize - sys.recordIndex) =
        sys.recordBufferSize := by omega
    rw [if_pos (by omega)]
    have h := stop_fields
      { sys with recordIndex :=
          sys.recordIndex + (sys.recordBufferSize - sys.recordIndex) } wifi stt
    constructor
    · rw [h.1]; exact hidx
    · exact h.2.2.2 hrec

/-- A concrete nearly-full session for the C2 witness: capacity 10, offset 8. -/
def nearFullSys : Sys :=
  { initialSys with
    assistState := AssistSt.recording
    recordIndex := 8
    recordBufferSize := 10 }

/-- C2 witness: feeding 5 samples into the 10-capacity session at offset 8 pins
the offset at 10 and forces finalization; feeding while idle is a no-op. -/
theorem C2_witness :
    ((feedAudioS nearFullSys true none 5).recordIndex = nearFullSys.recordBufferSize ∧
      (feedAudioS nearFullSys true none 5).assistState ≠ AssistSt.recording) ∧
    feedAudioS initialSys true none 5 = initialSys :=
  ⟨C2_feed_safety.2.2.1 nearFullSys true none 5 (by decide) (by decide) (by decide) (by decide),
   C2_feed_safety.2.2.2 initialSys true none 5 (Or.inl (by decide))⟩

/-! ### Claim C8: baseline updates versus the cooldown gate -/

/-- A detector state in mid-cooldown with a long-overdue baseline update, used
to refute C8 as stated. -/
def cooldownSt : VAState :=
  { initialized := true
    wakeModeThreshold := true
    sensitivity := sens03
    voiceThreshold := voiceThresholdOf sens03
    lastAudioLevel := 0
    lastDetectionTime := 0
    cooldownUntil := 5000
    baselineLevels := List.replicate BASELINE_SAMPLES 0
    baselineIndex := 0
    adaptiveBaseline := 0
    lastBaselineUpdate := 0
    voiceDetected := false }

/-- C8 counterexample: at time 3000 the baseline update is long overdue
(3000 ms ≥ `BASELINE_UPDATE_MS`), but the call arrives during cooldown
(3000 < `cooldownUntil` = 5000) and `processAudioFrame` returns with the state
completely unchanged — nothing is appended to the baseline buffer and the
update timestamp does not move, contradicting the claim that baseline updating
proceeds on its timer independently of cooldown. -/
theorem C8_counterexample :
    3000 - cooldownSt.lastBaselineUpdate ≥ BASELINE_UPDATE_MS ∧
    3000 < cooldownSt.cooldownUntil ∧
    (processAudioFrame cooldownSt 3000 [100]).2 = cooldownSt ∧
    (processAudioFrame cooldownSt 3000 [100]).2.baselineLevels = cooldownSt.baselineLevels ∧
    (processAudioFrame cooldownSt 3000 [100]).2.lastBaselineUpdate =
      cooldownSt.lastBaselineUpdate := by
  have h3 : processAudioFrame cooldownSt 3000 [100] = (false, cooldownSt) := by
    unfold processAudioFrame
    rw [if_neg (by decide), if_neg (by decide), if_pos (by decide)]
  refine ⟨by decide, by decide, ?_, ?_, ?_⟩ <;> rw [h3]

/-- C8 (amended): whenever at least `BASELINE_UPDATE_MS` has elapsed since the
last baseline update AND the call passes the detector's early-exit guards —
initialized, threshold wake mode, a non-empty frame, and NOT in cooldown — the
evaluated block's amplitude is appended at the buffer cursor and the percentile
recomputed, regardless of whether this call reports a trigger.  (The original
claim's "independently of the detector's cooldown state" is what fails: during
cooldown the call returns before the baseline stage, as the counterexample
shows.) -/
theorem C8_baseline_timer (st : VAState) (now : ℕ) (frame : List ℤ)
    (hinit : st.initialized = true) (hmode : st.wakeModeThreshold = true)
    (hne : frame ≠ []) (hcd : ¬ now < st.cooldownUntil)
    (helapsed : now - st.lastBaselineUpdate ≥ BASELINE_UPDATE_MS) :
    (processAudioFrame st now frame).2.baselineLevels =
      st.baselineLevels.set st.baselineIndex (peakToPeakOf frame) ∧
    (processAudioFrame st now frame).2.baselineIndex =
      (st.baselineIndex + 1) % BASELINE_SAMPLES ∧
    (processAudioFrame st now frame).2.adaptiveBaseline =
      calculateBaseline (st.baselineLevels.set st.baselineIndex (peakToPeakOf frame)) ∧
    (processAudioFrame st now frame).2.lastBaselineUpdate = now := by
  have hup : BASELINE_UPDATE_MS ≤ now - st.lastBaselineUpdate := by simpa using helapsed
  unfold processAudioFrame baselineStage updateBaseline
  rw [if_neg (by simp [hinit, hne]), if_neg (by simp [hmode]), if_neg hcd]
  simp only [ge_iff_le, hup, ite_true, if_true, apply_ite Prod.snd,
    apply_ite VAState.baselineLevels, apply_ite VAState.baselineIndex,
    apply_ite VAState.adaptiveBaseline, apply_ite VAState.lastBaselineUpdate, ite_self]
  exact ⟨trivial, trivial, trivial, trivial⟩

/-- C8 witness: a fresh detector state, an overdue update at time 1000, and a
quiet frame: the buffer slot 0 receives the frame's amplitude and the update
timestamp advances, while the call reports no trigger. -/
theorem C8_witness :
    (processAudioFrame (initialVAState sens03) 1000 [7, -7]).2.baselineLevels =
      (initialVAState sens03).baselineLevels.set 0 (peakToPeakOf [7, -7]) ∧
    (processAudioFrame (initialVAState sens03) 1000 [7, -7]).2.lastBaselineUpdate = 1000 ∧
    (processAudioFrame (initialVAState sens03) 1000 [7, -7]).1 = false := by
  have h := C8_baseline_timer (initialVAState sens03) 1000 [7, -7]
    (by decide) (by decide) (by decide) (by decide) (by decide)
  exact ⟨h.1, h.2.2.2, by decide⟩

/-! ### Claim C4: the two-stage trigger condition -/

theorem baselineStage_voiceThreshold (st : VAState) (now : ℕ) (p : ℤ) :
    (baselineStage st now p).voiceThreshold = st.voiceThreshold := by
  unfold baselineStage updateBaseline
  split <;> rfl

/-- C4 counterexample: at the representable sensitivity 1.0 the source stores
`voiceThreshold = 25000006` (single-precision evaluation of
`250000000 * (1.0f - 1.0f * 0.9f)`, with `0.9f > 0.9` impossible exactly),
whereas the claim's formula `250000000 * (1 - sensitivity * 0.9)` gives
`25000000`, so the claimed equation for `voiceThreshold` fails on the code. -/
theorem C4_counterexample :
    voiceThresholdOf (1, 0) = 25000006 ∧
    (250000000 : ℚ) * (1 - f2q (1, 0) * (9 / 10)) = 25000000 ∧
    (25000006 : ℤ) ≠ 25000000 := by
  refine ⟨by decide, ?_, by decide⟩
  norm_num [f2q]

/-- C4 (amended): for a call evaluated outside cooldown (detector initialized,
threshold wake mode, non-empty frame), with `b` the adaptive baseline in force
for the decision (after this call's own baseline-stage update) being a
nonnegative value that is exactly representable in binary32 and whose double
fits in `int32_t`, the call reports a trigger iff BOTH (a) the compared
amplitude exceeds `voiceThresholdOf sensitivity` — the single-precision
evaluation of `250000000 * (1 − sensitivity * 0.9)` truncated to `int32_t`,
not the exact real-arithmetic formula — and (b) the amplitude exceeds
`2 * b`, or `b` is still zero (cold start), in which case (b) is vacuous. -/
theorem C4_trigger_iff (st : VAState) (now : ℕ) (frame : List ℤ) (b : ℤ)
    (hinit : st.initialized = true) (hmode : st.wakeModeThreshold = true)
    (hcd : ¬ now < st.cooldownUntil) (hne : frame ≠ [])
    (hthr : st.voiceThreshold = voiceThresholdOf st.sensitivity)
    (hb : b = (baselineStage { st with lastAudioLevel := peakToPeakOf frame } now
                (peakToPeakOf frame)).adaptiveBaseline)
    (hb0 : 0 ≤ b) (hbexact : round24 b = b) (hbrange : 2 * b < 2 ^ 31) :
    (processAudioFrame st now frame).1 = true ↔
      (peakToPeakOf frame > voiceThresholdOf st.sensitivity ∧
        (b = 0 ∨ peakToPeakOf frame > 2 * b)) := by
  unfold processAudioFrame
  rw [if_neg (by simp [hinit, hne]), if_neg (by simp [hmode]), if_neg hcd]
  dsimp only
  simp only [apply_ite Prod.fst]
  rw [← hb]
  have hspike : spikeThresholdC b = 2 * b := by
    unfold spikeThresholdC
    rw [hbexact]
  simp only [baselineStage_voiceThreshold, hthr, hspike]
  rcases eq_or_lt_of_le hb0 with heq | hpos
  · subst heq
    by_cases hc : peakToPeakOf frame > voiceThresholdOf st.sensitivity <;> simp [hc]
  · have hne0 : b ≠ 0 := by omega
    by_cases hc1 : peakToPeakOf frame > voiceThresholdOf st.sensitivity <;>
      by_cases hc2 : peakToPeakOf frame > 2 * b <;>
        simp [hc1, hc2, hpos, hne0]

/-- C4 witness: a fresh detector at the default sensitivity, a loud frame at
time 1000 whose own baseline update makes the decision baseline 655360000:
condition (a) holds but (b) fails, and accordingly no trigger is reported. -/
theorem C4_witness :
    round24 655360000 = 655360000 ∧ 2 * (655360000 : ℤ) < 2 ^ 31 ∧
    ((processAudioFrame (initialVAState sens03) 1000 [5000, -5000]).1 = true ↔
      (peakToPeakOf [5000, -5000] > voiceThresholdOf (initialVAState sens03).sensitivity ∧
        ((655360000 : ℤ) = 0 ∨ peakToPeakOf [5000, -5000] > 2 * 655360000))) :=
  ⟨by decide, by decide,
   C4_trigger_iff (initialVAState sens03) 1000 [5000, -5000] 655360000
     (by decide) (by decide) (by decide) (by decide) (by decide) (by decide)
     (by decide) (by decide) (by decide)⟩

/-! ### Claim C3: trigger cooldown -/

theorem paf_cooldown_false (st : VAState) (now : ℕ) (frame : List ℤ)
    (h : now < st.cooldownUntil) : (processAudioFrame st now frame).1 = false := by
  unfold processAudioFrame
  split_ifs <;> rfl

theorem paf_cooldown_cases (st : VAState) (now : ℕ) (frame : List ℤ) :
    ((processAudioFrame st now frame).1 = true ∧ st.cooldownUntil ≤ now ∧
      (processAudioFrame st now frame).2.cooldownUntil = now + COOLDOWN_MS) ∨
    ((processAudioFrame st now frame).1 = false ∧
      (processAudioFrame st now frame).2.cooldownUntil = st.cooldownUntil) := by
  have hbs : ∀ p, (baselineStage { st with lastAudioLevel := p } now p).cooldownUntil =
      st.cooldownUntil := by
    intro p
    unfold baselineStage updateBaseline
    split <;> rfl
  unfold processAudioFrame
  by_cases h1 : ¬st.initialized = true ∨ frame = []
  · rw [if_pos h1]
    exact Or.inr ⟨rfl, rfl⟩
  rw [if_neg h1]
  by_cases h2 : ¬st.wakeModeThreshold = true
  · rw [if_pos h2]
    exact Or.inr ⟨rfl, rfl⟩
  rw [if_neg h2]
  by_cases h3 : now < st.cooldownUntil
  · rw [if_pos h3]
    exact Or.inr ⟨rfl, rfl⟩
  rw [if_neg h3]
  dsimp only
  split <;> split <;>
    first
      | exact Or.inl ⟨rfl, by omega, rfl⟩
      | exact Or.inr ⟨rfl, hbs _⟩

/-- Cooldown never decreases across a call. -/
theorem paf_cooldown_mono (st : VAState) (now : ℕ) (frame : List ℤ) :
    st.cooldownUntil ≤ (processAudioFrame st now frame).2.cooldownUntil ∨
    (processAudioFrame st now frame).2.cooldownUntil = now + COOLDOWN_MS := by
  rcases paf_cooldown_cases st now frame with ⟨_, _, h⟩ | ⟨_, h⟩
  · exact Or.inr h
  · exact Or.inl (le_of_eq h.symm)

theorem triggerTimes_cons (st : VAState) (t : ℕ) (f : List ℤ) (rest : List (ℕ × List ℤ)) :
    triggerTimes st ((t, f) :: rest) =
      if (processAudioFrame st t f).1 then t :: triggerTimes (processAudioFrame st t f).2 rest
      else triggerTimes (processAudioFrame st t f).2 rest := rfl

theorem triggerTimes_chain :
    ∀ (inps : List (ℕ × List ℤ)) (st : VAState),
      (inps.map Prod.fst).Pairwise (· ≤ ·) →
      (triggerTimes st inps).Pairwise (fun a b => a + COOLDOWN_MS ≤ b) ∧
      (∀ x ∈ triggerTimes st inps, st.cooldownUntil ≤ x) := by
  intro inps
  induction inps with
  | nil => intro st _; exact ⟨List.Pairwise.nil, by intro x hx; cases hx⟩
  | cons hd rest ih =>
    intro st hmono
    obtain ⟨t, f⟩ := hd
    simp only [List.map_cons, List.pairwise_cons] at hmono
    have hrest := hmono.2
    rcases paf_cooldown_cases st t f with ⟨htrig, hle, hcu⟩ | ⟨hfalse, hcu⟩
    · have hTT : triggerTimes st ((t, f) :: rest) =
          t :: triggerTimes (processAudioFrame st t f).2 rest := by
        rw [triggerTimes_cons, htrig]
        simp
      obtain ⟨hchain, hbound⟩ := ih (processAudioFrame st t f).2 hrest
      rw [hTT]
      constructor
      · refine List.pairwise_cons.mpr ⟨?_, hchain⟩
        intro x hx
        have := hbound x hx
        omega
      · intro x hx
        rcases List.mem_cons.mp hx with h | h
        · omega
        · have := hbound x h
          omega
    · have hTT : triggerTimes st ((t, f) :: rest) =
          triggerTimes (processAudioFrame st t f).2 rest := by
        rw [triggerTimes_cons, hfalse]
        simp
      obtain ⟨hchain, hbound⟩ := ih (processAudioFrame st t f).2 hrest
      rw [hTT]
      refine ⟨hchain, fun x hx => ?_⟩
      have := hbound x hx
      omega

/-- C3: over any monotone-time sequence of `processAudioFrame` calls, any two
calls that report a trigger are at least `COOLDOWN_MS = 2000` ms apart; and
immediately after a reported trigger at time `t`, every call strictly before
`t + COOLDOWN_MS` returns false unconditionally. -/
theorem C3_cooldown (st : VAState) (inps : List (ℕ × List ℤ))
    (hmono : (inps.map Prod.fst).Pairwise (· ≤ ·)) :
    (triggerTimes st inps).Pairwise (fun a b => a + COOLDOWN_MS ≤ b) ∧
    (∀ (now : ℕ) (frame : List ℤ) (st2 : VAState) (u : ℕ) (g : List ℤ),
      processAudioFrame st now frame = (true, st2) →
      u < now + COOLDOWN_MS → (processAudioFrame st2 u g).1 = false) := by
  refine ⟨(triggerTimes_chain inps st hmono).1, ?_⟩
  intro now frame st2 u g htrig hu
  rcases paf_cooldown_cases st now frame with ⟨_, _, hcu⟩ | ⟨hfalse, _⟩
  · rw [htrig] at hcu
    exact paf_cooldown_false st2 u g (by rw [hcu]; exact hu)
  · rw [htrig] at hfalse
    cases hfalse

/-- The detector state after a first quiet tick at time 1000 (the baseline
update fires with amplitude 0, leaving the adaptive baseline at 0). -/
def stq : VAState := (processAudioFrame (initialVAState sens03) 1000 [0]).2

/-- C3 witness: from `stq`, a loud call at 1500 triggers, and a second loud
call at 1700 — inside the 2000 ms cooldown — is refused; the run's trigger
times are pairwise spaced by at least `COOLDOWN_MS`. -/
theorem C3_witness :
    (triggerTimes stq [(1500, [10000, -10000]), (1700, [10000, -10000])]).Pairwise
      (fun a b => a + COOLDOWN_MS ≤ b) ∧
    (processAudioFrame (processAudioFrame stq 1500 [10000, -10000]).2
        1700 [10000, -10000]).1 = false := by
  have h := C3_cooldown stq [(1500, [10000, -10000]), (1700, [10000, -10000])] (by decide)
  refine ⟨h.1, ?_⟩
  refine h.2 1500 [10000, -10000] (processAudioFrame stq 1500 [10000, -10000]).2
    1700 [10000, -10000] ?_ (by decide)
  rw [show (true : Bool) = (processAudioFrame stq 1500 [10000, -10000]).1 from by decide]

/-! ### Claim C10: the unlock branch is unreachable -/

theorem containsSub_iff (pat s : List Char) :
    containsSub pat s = true ↔ pat <:+: s := by
  unfold containsSub
  rw [List.any_eq_true]
  constructor
  · rintro ⟨t, htmem, hpre⟩
    have hsuf : t <:+ s := (List.mem_tails _ _).mp htmem
    exact List.infix_iff_prefix_suffix.mpr ⟨t, List.isPrefixOf_iff_prefix.mp hpre, hsuf⟩
  · intro h
    obtain ⟨t, hpre, hsuf⟩ := List.infix_iff_prefix_suffix.mp h
    exact ⟨t, (List.mem_tails _ _).mpr hsuf, List.isPrefixOf_iff_prefix.mpr hpre⟩

/-- C10: any normalized command containing "unlock" that does not match the
earlier light and gate/garage categories takes the lock/door branch via its
"lock" substring test — which every occurrence of "unlock" satisfies — and so
the interpreter issues `controlLock("front_door", true)`, a LOCK actuation,
never the unlock one. -/
theorem C10_unlock_locks (raw : List Char)
    (hunlock : containsSub ("unlock".toList) (normalizeCommand raw) = true)
    (hlight : containsSub ("light".toList) (normalizeCommand raw) = false)
    (hgate : containsSub ("gate".toList) (normalizeCommand raw) = false)
    (hgarage : containsSub ("garage".toList) (normalizeCommand raw) = false) :
    processVoiceCommandActions raw = [HAAction.lock "front_door" true] := by
  have hlock : containsSub ("lock".toList) (normalizeCommand raw) = true := by
    rw [containsSub_iff]
    refine List.IsInfix.trans ?_ ((containsSub_iff _ _).mp hunlock)
    exact ⟨['u', 'n'], [], rfl⟩
  unfold processVoiceCommandActions dispatchCmd
  rw [if_neg (by rw [hlight]; exact Bool.false_ne_true),
    if_neg (by rw [hgate, hgarage]; simp),
    if_pos (Or.inl (show containsSub ("lock".toList) (normalizeCommand raw) = true from hlock)),
    if_pos (show containsSub ("lock".toList) (normalizeCommand raw) = true from hlock)]

/-- C10 witness: the transcript "unlock the door" normalizes to itself and
produces the LOCK actuation. -/
theorem C10_witness :
    processVoiceCommandActions ("unlock the door".toList) =
      [HAAction.lock "front_door" true] :=
  C10_unlock_locks ("unlock the door".toList) (by decide) (by decide) (by decide) (by decide)

/-! ### Helper lemmas for the composed state machine -/

theorem feedAudioS_noop (sys : Sys) (w : Bool) (s : Option (List Char)) (count : ℕ)
    (h : sys.assistState ≠ AssistSt.recording ∨ sys.hasBuffer = false) :
    feedAudioS sys w s count = sys := by
  unfold feedAudioS
  rw [if_pos]
  rcases h with h | h
  · exact Or.inl h
  · exact Or.inr (by simp [h])

theorem feed_nofill (sys : Sys) (w : Bool) (s : Option (List Char)) (count : ℕ)
    (h : sys.recordIndex + count < sys.recordBufferSize) :
    feedAudioS sys w s count =
      if sys.assistState = AssistSt.recording ∧ sys.hasBuffer = true
      then { sys with recordIndex := sys.recordIndex + count }
      else sys := by
  by_cases hg : sys.assistState = AssistSt.recording ∧ sys.hasBuffer = true
  · rw [if_pos hg]
    unfold feedAudioS
    rw [if_neg (by push_neg; exact ⟨hg.1, by simp [hg.2]⟩)]
    dsimp only
    have hmin : min count (sys.recordBufferSize - sys.recordIndex) = count := by omega
    rw [hmin, if_neg (by omega)]
  · rw [if_neg hg]
    refine feedAudioS_noop sys w s count ?_
    by_cases hs : sys.assistState = AssistSt.recording
    · right
      rcases Decidable.not_and_iff_or_not.mp hg with h | h
      · exact absurd hs h
      · simpa using h
    · exact Or.inl hs

theorem processing_absorbing (sys : Sys) (inp : TickInput)
    (h : sys.voiceState = VoiceSt.processing) : systemStep sys inp = sys := by
  unfold systemStep
  by_cases hl : inp.audio.length = 0
  · rw [if_pos hl]
  · rw [if_neg hl]
    dsimp only
    rw [h]

theorem runSystem_processing (future : List TickInput) (sys : Sys)
    (h : sys.voiceState = VoiceSt.processing) : runSystem sys future = sys := by
  induction future generalizing sys with
  | nil => rfl
  | cons i rest ih =>
    unfold runSystem
    rw [List.foldl_cons, processing_absorbing sys i h]
    exact ih sys h

/-- The updated recording-phase peak (`maxAudioLevel` after this tick's
tracking), as computed inside the `VOICE_RECORDING` case. -/
def recPeak (sys : Sys) (inp : TickInput) : ℤ :=
  if getMaxAudioLevel inp.audio > sys.maxAudioLevel then getMaxAudioLevel inp.audio
  else sys.maxAudioLevel

/-- The updated `silenceStartTime` after this tick's silence tracking. -/
def recSilenceStart (sys : Sys) (inp : TickInput) : ℕ :=
  if getMaxAudioLevel inp.audio > SILENCE_THRESHOLD then 0
  else if sys.silenceStartTime = 0 then inp.now else sys.silenceStartTime

/-- The recording-phase end condition of `handleVoiceRecognition` (silence for
`SILENCE_DURATION_MS` with the minimum met, or the maximum duration reached). -/
def recEndCond (sys : Sys) (inp : TickInput) : Prop :=
  ((if recSilenceStart sys inp > 0 then inp.now - recSilenceStart sys inp else 0) ≥
      SILENCE_DURATION_MS ∧
    inp.now - sys.voiceStateStartTime ≥ MIN_RECORDING_MS) ∨
  inp.now - sys.voiceStateStartTime ≥ MAX_RECORDING_MS

/-- Shared branch analysis of the three rejection paths; used by the
rejection-path and totality claims below. -/
theorem step_rejections (sys : Sys) (inp : TickInput)
    (hne : inp.audio ≠ [])
    (hnofill : sys.recordIndex + inp.audio.length < sys.recordBufferSize) :
    (sys.voiceState = VoiceSt.waitingSpeech →
      inp.now - sys.voiceStateStartTime >
        TRIGGER_COOLDOWN_MS + WAIT_FOR_SPEECH_TIMEOUT_MS →
      (systemStep sys inp).voiceState = VoiceSt.idle ∧
      (systemStep sys inp).assistState = AssistSt.idle ∧
      (systemStep sys inp).recordIndex = 0 ∧
      (systemStep sys inp).events = sys.events) ∧
    (sys.voiceState = VoiceSt.recording →
      recEndCond sys inp →
      recPeak sys inp < MIN_SPEECH_LEVEL →
      (systemStep sys inp).voiceState = VoiceSt.idle ∧
      (systemStep sys inp).assistState = AssistSt.idle ∧
      (systemStep sys inp).recordIndex = 0 ∧
      (systemStep sys inp).events = sys.events) ∧
    (sys.voiceState = VoiceSt.recording →
      recEndCond sys inp →
      ¬ recPeak sys inp < MIN_SPEECH_LEVEL →
      sys.totalAudioSamples + inp.audio.length < 3200 →
      (systemStep sys inp).voiceState = VoiceSt.idle ∧
      (systemStep sys inp).assistState = AssistSt.idle ∧
      (systemStep sys inp).recordIndex = 0 ∧
      (systemStep sys inp).events = sys.events) := by
  have hlen : ¬ inp.audio.length = 0 := by simpa using hne
  refine ⟨?_, ?_, ?_⟩
  · intro hvs htime
    unfold systemStep
    rw [if_neg hlen]
    dsimp only
    rw [hvs]
    dsimp only
    rw [feed_nofill sys inp.wifi inp.stt inp.audio.length hnofill]
    by_cases hg : sys.assistState = AssistSt.recording ∧ sys.hasBuffer = true
    · rw [if_pos hg]
      dsimp only
      rw [if_neg (by omega), if_pos (by omega)]
      refine ⟨rfl, rfl, rfl, ?_⟩
      simp only [cancelRecordingS, apply_ite Sys.events, ite_self]
    · rw [if_neg hg]
      rw [if_neg (by omega), if_pos (by omega)]
      refine ⟨rfl, rfl, rfl, ?_⟩
      simp only [cancelRecordingS, apply_ite Sys.events, ite_self]
  · intro hvs hend hquiet
    unfold systemStep
    rw [if_neg hlen]
    dsimp only
    rw [hvs]
    dsimp only
    rw [feed_nofill sys inp.wifi inp.stt inp.audio.length hnofill]
    unfold recEndCond recSilenceStart at hend
    unfold recPeak at hquiet
    by_cases hg : sys.assistState = AssistSt.recording ∧ sys.hasBuffer = true
    · rw [if_pos hg]
      dsimp only
      rw [if_pos (by rcases hend with ⟨h1, h2⟩ | h; exacts [Or.inl ⟨h1, h2⟩, Or.inr h]),
        if_pos hquiet]
      exact ⟨rfl, rfl, rfl, rfl⟩
    · rw [if_neg hg]
      rw [if_pos (by rcases hend with ⟨h1, h2⟩ | h; exacts [Or.inl ⟨h1, h2⟩, Or.inr h]),
        if_pos hquiet]
      exact ⟨rfl, rfl, rfl, rfl⟩
  · intro hvs hend hloud hshort
    unfold systemStep
    rw [if_neg hlen]
    dsimp only
    rw [hvs]
    dsimp only
    rw [feed_nofill sys inp.wifi inp.stt inp.audio.length hnofill]
    unfold recEndCond recSilenceStart at hend
    unfold recPeak at hloud
    by_cases hg : sys.assistState = AssistSt.recording ∧ sys.hasBuffer = true
    · rw [if_pos hg]
      dsimp only
      rw [if_pos (by rcases hend with ⟨h1, h2⟩ | h; exacts [Or.inl ⟨h1, h2⟩, Or.inr h]),
        if_neg hloud, if_pos (by omega)]
      exact ⟨rfl, rfl, rfl, rfl⟩
    · rw [if_neg hg]
      rw [if_pos (by rcases hend with ⟨h1, h2⟩ | h; exacts [Or.inl ⟨h1, h2⟩, Or.inr h]),
        if_neg hloud, if_pos (by omega)]
      exact ⟨rfl, rfl, rfl, rfl⟩

/-- C6: each rejection path of the state machine — timeout waiting for speech,
recording rejected as too quiet, recording rejected as too short — cancels the
recording session (client idle, write offset reset, buffered audio discarded)
and returns the machine to Idle without emitting any STT submission, callback,
or actuation event.  The tick is assumed not to fill the recording buffer
(otherwise `feedAudio` would auto-finalize before the rejection check runs). -/
theorem C6_rejections_cancel (sys : Sys) (inp : TickInput)
    (hne : inp.audio ≠ [])
    (hnofill : sys.recordIndex + inp.audio.length < sys.recordBufferSize) :
    (sys.voiceState = VoiceSt.waitingSpeech →
      inp.now - sys.voiceStateStartTime >
        TRIGGER_COOLDOWN_MS + WAIT_FOR_SPEECH_TIMEOUT_MS →
      (systemStep sys inp).voiceState = VoiceSt.idle ∧
      (systemStep sys inp).assistState = AssistSt.idle ∧
      (systemStep sys inp).recordIndex = 0 ∧
      (systemStep sys inp).events = sys.events) ∧
    (sys.voiceState = VoiceSt.recording →
      recEndCond sys inp →
      recPeak sys inp < MIN_SPEECH_LEVEL →
      (systemStep sys inp).voiceState = VoiceSt.idle ∧
      (systemStep sys inp).assistState = AssistSt.idle ∧
      (systemStep sys inp).recordIndex = 0 ∧
      (systemStep sys inp).events = sys.events) ∧
    (sys.voiceState = VoiceSt.recording →
      recEndCond sys inp →
      ¬ recPeak sys inp < MIN_SPEECH_LEVEL →
      sys.totalAudioSamples + inp.audio.length < 3200 →
      (systemStep sys inp).voiceState = VoiceSt.idle ∧
      (systemStep sys inp).assistState = AssistSt.idle ∧
      (systemStep sys inp).recordIndex = 0 ∧
      (systemStep sys inp).events = sys.events) :=
  step_rejections sys inp hne hnofill

/-- A session in `WaitingForSpeech` whose trigger happened at time 0, used to
witness the timeout path. -/
def waitingSys : Sys :=
  { initialSys with
    voiceState := VoiceSt.waitingSpeech
    assistState := AssistSt.recording
    recordIndex := 100 }

/-- The quiet tick at 4000 ms that times the session out. -/
def timeoutInp : TickInput := { now := 4000, audio := [50], wifi := true, stt := none }

/-- C6 witness: the concrete timeout tick cancels the session and restores
idle with no event emitted. -/
theorem C6_witness :
    (systemStep waitingSys timeoutInp).voiceState = VoiceSt.idle ∧
    (systemStep waitingSys timeoutInp).assistState = AssistSt.idle ∧
    (systemStep waitingSys timeoutInp).recordIndex = 0 ∧
    (systemStep waitingSys timeoutInp).events = waitingSys.events :=
  (C6_rejections_cancel waitingSys timeoutInp (by decide) (by decide)).1 (by decide) (by decide)

/-! ### Claim C1: totality of the terminal paths -/

theorem onAssist_voiceState (sys : Sys) (t : Option (List Char)) :
    (onAssistResultS sys t).voiceState = VoiceSt.idle := by
  unfold onAssistResultS
  cases t with
  | none => rfl
  | some txt => by_cases h : txt = [] <;> simp [h]

theorem fireCallback_voiceState (sys : Sys) (t : Option (List Char))
    (hcb : sys.callbackSet = true) :
    (fireCallback sys t).voiceState = VoiceSt.idle := by
  unfold fireCallback
  rw [if_pos hcb]
  exact onAssist_voiceState _ t

theorem fireCallback_voiceState_cases (sys : Sys) (t : Option (List Char)) :
    (fireCallback sys t).voiceState = sys.voiceState ∨
    (fireCallback sys t).voiceState = VoiceSt.idle := by
  unfold fireCallback
  by_cases hcb : sys.callbackSet = true
  · rw [if_pos hcb]
    exact Or.inr (onAssist_voiceState _ t)
  · rw [if_neg hcb]
    exact Or.inl rfl

theorem processVoice_voiceState (sys : Sys) (w : Bool) (s : Option (List Char)) (c : ℕ)
    (hcb : sys.callbackSet = true) :
    (processVoiceS sys w s c).2.voiceState = VoiceSt.idle := by
  unfold processVoiceS
  by_cases hw : w = true
  · rw [if_neg (by simp [hw])]
    cases s with
    | none => exact fireCallback_voiceState _ none hcb
    | some txt =>
      dsimp only
      by_cases h : txt = []
      · rw [if_pos h]
        exact fireCallback_voiceState _ none hcb
      · rw [if_neg h]
        exact fireCallback_voiceState _ (some txt) hcb
  · rw [if_pos (by simp [hw])]
    exact fireCallback_voiceState _ none hcb

theorem processVoice_voiceState_cases (sys : Sys) (w : Bool) (s : Option (List Char)) (c : ℕ) :
    (processVoiceS sys w s c).2.voiceState = sys.voiceState ∨
    (processVoiceS sys w s c).2.voiceState = VoiceSt.idle := by
  unfold processVoiceS
  by_cases hw : w = true
  · rw [if_neg (by simp [hw])]
    cases s with
    | none => exact fireCallback_voiceState_cases _ none
    | some txt =>
      dsimp only
      by_cases h : txt = []
      · rw [if_pos h]
        exact fireCallback_voiceState_cases _ none
      · rw [if_neg h]
        exact fireCallback_voiceState_cases _ (some txt)
  · rw [if_pos (by simp [hw])]
    exact fireCallback_voiceState_cases _ none

theorem stop_voiceState (sys : Sys) (w : Bool) (s : Option (List Char))
    (hrec : sys.assistState = AssistSt.recording)
    (hlong : ¬ sys.recordIndex < ASSIST_SAMPLE_RATE / 4)
    (hcb : sys.callbackSet = true) :
    (stopAndProcessS sys w s).2.voiceState = VoiceSt.idle := by
  unfold stopAndProcessS
  rw [if_neg (by simp [hrec]), if_neg hlong]
  exact processVoice_voiceState sys w s sys.recordIndex hcb

theorem stop_voiceState_cases (sys : Sys) (w : Bool) (s : Option (List Char)) :
    (stopAndProcessS sys w s).2.voiceState = sys.voiceState ∨
    (stopAndProcessS sys w s).2.voiceState = VoiceSt.idle := by
  unfold stopAndProcessS
  by_cases h1 : sys.assistState ≠ AssistSt.recording
  · rw [if_pos h1]
    exact Or.inl rfl
  · rw [if_neg h1]
    by_cases h2 : sys.recordIndex < ASSIST_SAMPLE_RATE / 4
    · rw [if_pos h2]
      exact Or.inl rfl
    · rw [if_neg h2]
      exact processVoice_voiceState_cases sys w s sys.recordIndex

/-- C1 (amended): branch dispositions of the voice state machine, for a tick
with audio that does not fill the recording buffer.  (1) The
waiting-for-speech timeout returns to Idle.  (2, 3) The too-quiet and
too-short rejections return to Idle.  (4) The success branch — end condition
met, peak at least `MIN_SPEECH_LEVEL`, at least 3200 samples — enters
Processing and, provided the session holds at least
`ASSIST_SAMPLE_RATE / 4 = 4000` samples and the result callback is
registered, returns to Idle within the same tick through that callback,
whatever the network oracle answers.  (5) If the success branch fires with
fewer than 4000 samples, the client discards the recording without invoking
the callback, and the machine is left in Processing.  (6) Processing is
absorbing: no later tick changes the state, so a run entering case (5) stays
in Processing forever — stuck, but only in Processing, never elsewhere.
(7) Recording cannot outlive `MAX_RECORDING_MS`: any tick at or past the
maximum duration leaves the machine in Idle or Processing. -/
theorem C1_branch_dispositions (sys : Sys) (inp : TickInput)
    (hne : inp.audio ≠ [])
    (hnofill : sys.recordIndex + inp.audio.length < sys.recordBufferSize) :
    (sys.voiceState = VoiceSt.waitingSpeech →
      inp.now - sys.voiceStateStartTime >
        TRIGGER_COOLDOWN_MS + WAIT_FOR_SPEECH_TIMEOUT_MS →
      (systemStep sys inp).voiceState = VoiceSt.idle) ∧
    (sys.voiceState = VoiceSt.recording → recEndCond sys inp →
      recPeak sys inp < MIN_SPEECH_LEVEL →
      (systemStep sys inp).voiceState = VoiceSt.idle) ∧
    (sys.voiceState = VoiceSt.recording → recEndCond sys inp →
      ¬ recPeak sys inp < MIN_SPEECH_LEVEL →
      sys.totalAudioSamples + inp.audio.length < 3200 →
      (systemStep sys inp).voiceState = VoiceSt.idle) ∧
    (sys.voiceState = VoiceSt.recording →
      sys.assistState = AssistSt.recording → sys.hasBuffer = true →
      sys.callbackSet = true →
      recEndCond sys inp →
      ¬ recPeak sys inp < MIN_SPEECH_LEVEL →
      ¬ sys.totalAudioSamples + inp.audio.length < 3200 →
      ¬ sys.recordIndex + inp.audio.length < ASSIST_SAMPLE_RATE / 4 →
      (systemStep sys inp).voiceState = VoiceSt.idle) ∧
    (sys.voiceState = VoiceSt.recording →
      sys.assistState = AssistSt.recording → sys.hasBuffer = true →
      recEndCond sys inp →
      ¬ recPeak sys inp < MIN_SPEECH_LEVEL →
      ¬ sys.totalAudioSamples + inp.audio.length < 3200 →
      sys.recordIndex + inp.audio.length < ASSIST_SAMPLE_RATE / 4 →
      (systemStep sys inp).voiceState = VoiceSt.processing ∧
      (systemStep sys inp).events = sys.events) ∧
    (sys.voiceState = VoiceSt.processing → systemStep sys inp = sys) ∧
    (sys.voiceState = VoiceSt.recording →
      inp.now - sys.voiceStateStartTime ≥ MAX_RECORDING_MS →
      (systemStep sys inp).voiceState = VoiceSt.idle ∨
      (systemStep sys inp).voiceState = VoiceSt.processing) := by
  have hlen : ¬ inp.audio.length = 0 := by simpa using hne
  obtain ⟨hr1, hr2, hr3⟩ := step_rejections sys inp hne hnofill
  refine ⟨fun a b => (hr1 a b).1, fun a b c => (hr2 a b c).1,
    fun a b c d => (hr3 a b c d).1, ?_, ?_, fun h => processing_absorbing sys inp h, ?_⟩
  · intro hvs hrec hbuf hcb hend hloud hlong hidx
    unfold systemStep
    rw [if_neg hlen]
    dsimp only
    rw [hvs]
    dsimp only
    rw [feed_nofill sys inp.wifi inp.stt inp.audio.length hnofill,
      if_pos (show sys.assistState = AssistSt.recording ∧ sys.hasBuffer = true
        from ⟨hrec, hbuf⟩)]
    dsimp only
    unfold recEndCond recSilenceStart at hend
    unfold recPeak at hloud
    rw [if_pos (by rcases hend with ⟨h1, h2⟩ | h; exacts [Or.inl ⟨h1, h2⟩, Or.inr h]),
      if_neg hloud, if_neg hlong]
    exact stop_voiceState _ inp.wifi inp.stt hrec hidx hcb
  · intro hvs hrec hbuf hend hloud hlong hidx
    unfold systemStep
    rw [if_neg hlen]
    dsimp only
    rw [hvs]
    dsimp only
    rw [feed_nofill sys inp.wifi inp.stt inp.audio.length hnofill,
      if_pos (show sys.assistState = AssistSt.recording ∧ sys.hasBuffer = true
        from ⟨hrec, hbuf⟩)]
    dsimp only
    unfold recEndCond recSilenceStart at hend
    unfold recPeak at hloud
    rw [if_pos (by rcases hend with ⟨h1, h2⟩ | h; exacts [Or.inl ⟨h1, h2⟩, Or.inr h]),
      if_neg hloud, if_neg hlong]
    unfold stopAndProcessS
    rw [if_neg (by simp [hrec]), if_pos hidx]
    exact ⟨rfl, rfl⟩
  · intro hvs htime
    unfold systemStep
    rw [if_neg hlen]
    dsimp only
    rw [hvs]
    dsimp only
    rw [feed_nofill sys inp.wifi inp.stt inp.audio.length hnofill]
    by_cases hg : sys.assistState = AssistSt.recording ∧ sys.hasBuffer = true
    · rw [if_pos hg]
      dsimp only
      rw [if_pos (Or.inr htime)]
      by_cases hq : (if getMaxAudioLevel inp.audio > sys.maxAudioLevel
          then getMaxAudioLevel inp.audio else sys.maxAudioLevel) < MIN_SPEECH_LEVEL
      · rw [if_pos hq]
        exact Or.inl rfl
      · rw [if_neg hq]
        by_cases hs : sys.totalAudioSamples + inp.audio.length < 3200
        · rw [if_pos hs]
          exact Or.inl rfl
        · rw [if_neg hs]
          rcases stop_voiceState_cases
              ({ sys with
                  recordIndex := sys.recordIndex + inp.audio.length
                  totalAudioSamples := sys.totalAudioSamples + inp.audio.length
                  maxAudioLevel := if getMaxAudioLevel inp.audio > sys.maxAudioLevel
                    then getMaxAudioLevel inp.audio else sys.maxAudioLevel
                  lastSpeechTime := if getMaxAudioLevel inp.audio > SILENCE_THRESHOLD
                    then inp.now else sys.lastSpeechTime
                  silenceStartTime := if getMaxAudioLevel inp.audio > SILENCE_THRESHOLD
                    then 0 else if sys.silenceStartTime = 0 then inp.now
                    else sys.silenceStartTime
                  voiceState := VoiceSt.processing }) inp.wifi inp.stt with h | h
          · exact Or.inr h
          · exact Or.inl h
    · rw [if_neg hg]
      rw [if_pos (Or.inr htime)]
      by_cases hq : (if getMaxAudioLevel inp.audio > sys.maxAudioLevel
          then getMaxAudioLevel inp.audio else sys.maxAudioLevel) < MIN_SPEECH_LEVEL
      · rw [if_pos hq]
        exact Or.inl rfl
      · rw [if_neg hq]
        by_cases hs : sys.totalAudioSamples + inp.audio.length < 3200
        · rw [if_pos hs]
          exact Or.inl rfl
        · rw [if_neg hs]
          rcases stop_voiceState_cases
              ({ sys with
                  totalAudioSamples := sys.totalAudioSamples + inp.audio.length
                  maxAudioLevel := if getMaxAudioLevel inp.audio > sys.maxAudioLevel
                    then getMaxAudioLevel inp.audio else sys.maxAudioLevel
                  lastSpeechTime := if getMaxAudioLevel inp.audio > SILENCE_THRESHOLD
                    then inp.now else sys.lastSpeechTime
                  silenceStartTime := if getMaxAudioLevel inp.audio > SILENCE_THRESHOLD
                    then 0 else if sys.silenceStartTime = 0 then inp.now
                    else sys.silenceStartTime
                  voiceState := VoiceSt.processing }) inp.wifi inp.stt with h | h
          · exact Or.inr h
          · exact Or.inl h

/-- The concrete tick sequence that drives the machine from boot into the
stuck configuration: a quiet tick (baseline update at level 0), a loud spike
(trigger), a 64-sample speech block after the trigger cooldown, then 54 silent
64-sample blocks until the 700 ms silence end condition fires at 2700 ms with
3520 total samples — above the machine's 3200-sample floor but below the
client's 4000-sample floor. -/
def c1Inputs : List TickInput :=
  [ { now := 1000, audio := [0], wifi := true, stt := some ("hello".toList) },
    { now := 1500, audio := [10000, -10000], wifi := true, stt := some ("hello".toList) },
    { now := 1900, audio := List.replicate 64 600, wifi := true, stt := some ("hello".toList) } ] ++
  (List.range 53).map (fun k =>
    { now := 2000 + 13 * k, audio := List.replicate 64 50, wifi := true,
      stt := some ("hello".toList) }) ++
  [ { now := 2700, audio := List.replicate 64 50, wifi := true, stt := some ("hello".toList) } ]

/-- A system state that never leaves Processing, whatever ticks follow. -/
def stuckInProcessing (sys : Sys) : Prop :=
  sys.voiceState = VoiceSt.processing ∧
  ∀ future : List TickInput, runSystem sys future = sys

set_option maxRecDepth 8000 in
/-- C1 counterexample: the concrete success-category run (both machine-level
rejection checks pass and the machine enters Processing) ends with the machine
in Processing, no STT submission and no callback ever issued, and every
possible continuation leaves it there — so the success path does NOT always
return to Idle. -/
theorem C1_counterexample :
    stuckInProcessing (runSystem initialSys c1Inputs) ∧
    (runSystem initialSys c1Inputs).events = [] ∧
    (runSystem initialSys c1Inputs).totalAudioSamples = 3520 := by
  have hvs : (runSystem initialSys c1Inputs).voiceState = VoiceSt.processing := by decide
  exact ⟨⟨hvs, fun future => runSystem_processing future _ hvs⟩, by decide, by decide⟩

/-- A mid-recording configuration one tick away from the undersized success
branch: 3456 samples captured, peak 600, silence since 2000 ms. -/
def recSys : Sys :=
  { initialSys with
    voiceState := VoiceSt.recording
    assistState := AssistSt.recording
    voiceStateStartTime := 1500
    silenceStartTime := 2000
    maxAudioLevel := 600
    totalAudioSamples := 3456
    recordIndex := 3456 }

/-- The final silent tick that ends the recording with 3520 samples. -/
def recTick : TickInput :=
  { now := 2700, audio := List.replicate 64 50, wifi := true, stt := some ("hello".toList) }

set_option maxRecDepth 4000 in
/-- C1 witness: at the concrete configuration the undersized success branch
leaves the machine in Processing with no event emitted. -/
theorem C1_witness :
    (systemStep recSys recTick).voiceState = VoiceSt.processing ∧
    (systemStep recSys recTick).events = recSys.events :=
  (C1_branch_dispositions recSys recTick (by decide) (by decide)).2.2.2.2.1
    (by decide) (by decide) (by decide)
    (by unfold recEndCond recSilenceStart; decide)
    (by unfold recPeak; decide) (by decide) (by decide)
